import Mathlib

/-!
Verification of the sampling-and-rate-derivation core of
`sys_monitor_gui.py` (class `SystemMonitorApp`): the metrics collector
`_collect_metrics`, the byte formatter `_format_bytes`, the bounded CPU
history deque, and the `_schedule_update` tick loop.

Floats are modelled as rationals (`ℚ`); the cumulative OS counters as
naturals; a psutil read that may raise is modelled as an `Option` input;
Python's `ZeroDivisionError` and the per-subsystem read failures are the
error cases of `Except`.
-/

namespace SysMonitor

/-- Update cadence in milliseconds (`UPDATE_INTERVAL_MS = 1000`). -/
def UPDATE_INTERVAL_MS : ℕ := 1000

/-- Length of the CPU history deque (`CPU_HISTORY_LEN = 60`). -/
def CPU_HISTORY_LEN : ℕ := 60

/-- Result of `psutil.disk_io_counters()`: cumulative byte counters. -/
structure DiskCounters where
  read_bytes : ℕ
  write_bytes : ℕ
deriving DecidableEq

/-- Result of `psutil.net_io_counters()`: cumulative byte counters. -/
structure NetCounters where
  bytes_sent : ℕ
  bytes_recv : ℕ
deriving DecidableEq

/-- The sampler-private mutable state of `SystemMonitorApp`:
`self.cpu_history`, `self.prev_disk`, `self.prev_net`, `self.prev_time`. -/
structure MonState where
  cpu_history : List ℚ
  prev_disk : DiskCounters
  prev_net : NetCounters
  prev_time : ℚ
deriving DecidableEq

/-- The dict returned by `_collect_metrics` on success. -/
structure Metrics where
  cpu : ℚ
  mem : ℚ
  proc_count : ℕ
  read_bps : ℚ
  write_bps : ℚ
  sent_bps : ℚ
  recv_bps : ℚ
  timestamp : ℚ
deriving DecidableEq

/-- The five host reads a collection performs; each may fail. -/
inductive Subsystem
  | cpu
  | memory
  | process
  | disk
  | network
deriving DecidableEq

/-- How a collection can fail: a psutil read raised, or a rate division
raised Python's `ZeroDivisionError` (dt equal to zero). -/
inductive CollectErr
  | subsystem (s : Subsystem)
  | zeroDivision
deriving DecidableEq

instance instDecEqExcept {ε α : Type} [DecidableEq ε] [DecidableEq α] :
    DecidableEq (Except ε α)
  | Except.error e, Except.error f =>
    if h : e = f then isTrue (h ▸ rfl)
    else isFalse fun hh => h (Except.error.inj hh)
  | Except.error _, Except.ok _ => isFalse fun hh => Except.noConfusion hh
  | Except.ok _, Except.error _ => isFalse fun hh => Except.noConfusion hh
  | Except.ok x, Except.ok y =>
    if h : x = y then isTrue (h ▸ rfl)
    else isFalse fun hh => h (Except.ok.inj hh)

/-- One tick's view of the host: the wall clock `time.time()` value plus
the five psutil reads, `none` meaning that read raised. -/
structure HostReads where
  now : ℚ
  cpu : Option ℚ
  mem : Option ℚ
  pids : Option ℕ
  disk : Option DiskCounters
  net : Option NetCounters

/-- Line 183: `dt = now - self.prev_time if self.prev_time else 1.0`.
Python truthiness of a float: falsy exactly when it equals `0.0`. -/
def dtOf (now prev_time : ℚ) : ℚ :=
  if prev_time ≠ 0 then now - prev_time else 1

/-- Lines 195/196/203/204: `max(0, cur - prev)` on cumulative counters. -/
def byteDelta (cur prev : ℕ) : ℤ :=
  max 0 ((cur : ℤ) - (prev : ℤ))

/-- Appending to `self.cpu_history` (a `deque` with `maxlen`): when the
deque is full the leftmost element is evicted. -/
def history_append (h : List ℚ) (v : ℚ) : List ℚ :=
  if CPU_HISTORY_LEN ≤ h.length then h.tail ++ [v] else h ++ [v]

/-- The history deque as built at line 69:
`deque([0.0] * CPU_HISTORY_LEN, maxlen=CPU_HISTORY_LEN)`. -/
def history_init : List ℚ := List.replicate CPU_HISTORY_LEN 0

/-- The state built by `__init__` (lines 69-72): pre-filled history and
baseline counters/timestamp taken from the first real readings. -/
def init_state (disk0 : DiskCounters) (net0 : NetCounters) (t0 : ℚ) : MonState :=
  { cpu_history := history_init, prev_disk := disk0, prev_net := net0, prev_time := t0 }

/-- `SystemMonitorApp._collect_metrics` (lines 172-221), with the exact
statement order of the source: `self.prev_time` is assigned before any
psutil read; `self.prev_disk` is assigned after the disk rates are
computed and before the network read; `self.prev_net` after the network
rates; the history append is last.  A raise abandons the rest of the
method but keeps the mutations already performed. -/
def collect_metrics (r : HostReads) (st : MonState) :
    Except CollectErr Metrics × MonState :=
  let now := r.now
  let dt := dtOf now st.prev_time
  let st1 := { st with prev_time := now }
  match r.cpu with
  | none => (Except.error (CollectErr.subsystem Subsystem.cpu), st1)
  | some cpu =>
    match r.mem with
    | none => (Except.error (CollectErr.subsystem Subsystem.memory), st1)
    | some mem =>
      match r.pids with
      | none => (Except.error (CollectErr.subsystem Subsystem.process), st1)
      | some proc_count =>
        match r.disk with
        | none => (Except.error (CollectErr.subsystem Subsystem.disk), st1)
        | some cur_disk =>
          let read_bytes := byteDelta cur_disk.read_bytes st.prev_disk.read_bytes
          let write_bytes := byteDelta cur_disk.write_bytes st.prev_disk.write_bytes
          if dt = 0 then (Except.error CollectErr.zeroDivision, st1)
          else
            let read_bps : ℚ := (read_bytes : ℚ) / dt
            let write_bps : ℚ := (write_bytes : ℚ) / dt
            let st2 := { st1 with prev_disk := cur_disk }
            match r.net with
            | none => (Except.error (CollectErr.subsystem Subsystem.network), st2)
            | some cur_net =>
              let sent_bytes := byteDelta cur_net.bytes_sent st.prev_net.bytes_sent
              let recv_bytes := byteDelta cur_net.bytes_recv st.prev_net.bytes_recv
              let sent_bps : ℚ := (sent_bytes : ℚ) / dt
              let recv_bps : ℚ := (recv_bytes : ℚ) / dt
              let st3 := { st2 with prev_net := cur_net }
              let st4 := { st3 with cpu_history := history_append st3.cpu_history cpu }
              (Except.ok { cpu := cpu, mem := mem, proc_count := proc_count,
                           read_bps := read_bps, write_bps := write_bps,
                           sent_bps := sent_bps, recv_bps := recv_bps,
                           timestamp := now }, st4)

/-- Rounding of a rational to the nearest integer, ties to even: the
rounding CPython's fixed-point float formatting performs on a value the
binary double represents exactly. -/
def roundHalfEven (q : ℚ) : ℤ :=
  let f := ⌊q⌋
  let r := q - (f : ℚ)
  if r < 1 / 2 then f
  else if 1 / 2 < r then f + 1
  else if f % 2 = 0 then f else f + 1

/-- Decimal digit as a character. -/
def digitChar (n : ℕ) : Char := Char.ofNat (48 + n)

/-- Decimal digits of a natural number, most significant first
(fuel-based so it reduces in the kernel). -/
def natDigitsAux : ℕ → ℕ → List Char
  | 0, _ => []
  | fuel + 1, n =>
    if n < 10 then [digitChar n]
    else natDigitsAux fuel (n / 10) ++ [digitChar (n % 10)]

/-- Decimal digits of a natural number, most significant first. -/
def natDigits (n : ℕ) : List Char := natDigitsAux (n + 1) n

/-- Python's fixed-point format `f"{x:.kf}"` on an exactly-represented
value: round `x * 10^k` half-to-even, pad to at least `k + 1` digits,
place the decimal point `k` digits from the right (no point when
`k = 0`), with a leading minus sign whenever `x` is negative (Python
renders `-0.4` at precision 0 as `"-0"`). -/
def fmtFixed (k : ℕ) (x : ℚ) : String :=
  let n : ℤ := roundHalfEven (x * (10 : ℚ) ^ k)
  let ds := natDigits n.natAbs
  let ds := if ds.length < k + 1 then List.replicate (k + 1 - ds.length) '0' ++ ds else ds
  let signChars : List Char := if x < 0 then ['-'] else []
  if k = 0 then String.mk (signChars ++ ds)
  else String.mk (signChars ++ ds.take (ds.length - k) ++ ['.'] ++ ds.drop (ds.length - k))

/-- `SystemMonitorApp._format_bytes` (lines 223-232). -/
def format_bytes (bps : ℚ) : String :=
  if bps < 1024 then fmtFixed 0 bps ++ " B/s"
  else if bps < 1024 ^ 2 then fmtFixed 1 (bps / 1024) ++ " KB/s"
  else fmtFixed 2 (bps / 1024 ^ 2) ++ " MB/s"

/-- What a tick of `_schedule_update` can print-and-swallow: a collection
failure, or the widget-update (consumer) code raising. -/
inductive TickErr
  | collection (e : CollectErr)
  | consumer
deriving DecidableEq

/-- Input to one tick: the host reads plus whether `_update_widgets`
raises on this tick. -/
structure TickInput where
  reads : HostReads
  consumerRaises : Bool

/-- `SystemMonitorApp._schedule_update` (lines 257-270): the
collect-and-update pair runs inside `try/except Exception`, the caught
error is printed, and `self.root.after(UPDATE_INTERVAL_MS, ...)` runs
after the `try` block on every path.  Returns the post-tick state, the
swallowed error if any, and the delay passed to `after`. -/
def schedule_update (inp : TickInput) (st : MonState) :
    MonState × Option TickErr × ℕ :=
  match collect_metrics inp.reads st with
  | (Except.ok _, st') =>
    if inp.consumerRaises then (st', some TickErr.consumer, UPDATE_INTERVAL_MS)
    else (st', none, UPDATE_INTERVAL_MS)
  | (Except.error e, st') => (st', some (TickErr.collection e), UPDATE_INTERVAL_MS)

/-- A finite run of the rescheduling loop: each tick executes
`schedule_update` and the loop continues with the state it left behind;
the list records each tick's swallowed error. -/
def run_schedule : MonState → List TickInput → List (Option TickErr)
  | _, [] => []
  | st, inp :: rest =>
    let res := schedule_update inp st
    res.2.1 :: run_schedule res.1 rest


/-- `fmtFixed` specialised to an argument whose scaled value is the
integer `n`: the digit/point assembly on `n` directly. -/
def fmtFixedInt (k : ℕ) (n : ℤ) : String :=
  let ds := natDigits n.natAbs
  let ds := if ds.length < k + 1 then List.replicate (k + 1 - ds.length) '0' ++ ds else ds
  let signChars : List Char := if n < 0 then ['-'] else []
  if k = 0 then String.mk (signChars ++ ds)
  else String.mk (signChars ++ ds.take (ds.length - k) ++ ['.'] ++ ds.drop (ds.length - k))

theorem roundHalfEven_intCast (n : ℤ) : roundHalfEven (n : ℚ) = n := by
  unfold roundHalfEven
  simp only [Int.floor_intCast, sub_self]
  norm_num

theorem fmtFixed_scaled_nonneg (k : ℕ) (x : ℚ) (n : ℤ)
    (hx : x * (10 : ℚ) ^ k = (n : ℚ)) (h0 : 0 ≤ x) :
    fmtFixed k x = fmtFixedInt k n := by
  have hn : ¬ (n < 0) := by
    have h1 : (0 : ℚ) ≤ (n : ℚ) := by
      rw [← hx]; positivity
    exact_mod_cast not_lt.mpr h1
  have hxn : ¬ (x < 0) := not_lt.mpr h0
  unfold fmtFixed fmtFixedInt
  rw [hx, roundHalfEven_intCast, if_neg hxn, if_neg hn]

theorem fmtFixed_scaled_neg (k : ℕ) (x : ℚ) (n : ℤ)
    (hx : x * (10 : ℚ) ^ k = (n : ℚ)) (h0 : x < 0) :
    fmtFixed k x = fmtFixedInt k n := by
  have hn : n < 0 := by
    have h1 : (n : ℚ) < 0 := by
      rw [← hx]
      exact mul_neg_of_neg_of_pos h0 (by positivity)
    exact_mod_cast h1
  unfold fmtFixed fmtFixedInt
  rw [hx, roundHalfEven_intCast, if_pos h0, if_pos hn]


theorem halfKB_lt_kb : (1023.5 : ℚ) < 1024 := by norm_num

theorem nearMB_lt_mb : (1048524.8 : ℚ) < 1024 ^ 2 := by norm_num

/-- C6: `format_bytes` follows the threshold/precision table of the spec
(`< 1024` bytes at precision 0, `< 1024 ^ 2` kilobytes at precision 1,
else megabytes at precision 2) and matches the six listed examples. -/
theorem format_bytes_table :
    (∀ x : ℚ, 0 ≤ x →
      (x < 1024 → format_bytes x = fmtFixed 0 x ++ " B/s") ∧
      (1024 ≤ x → x < 1024 ^ 2 → format_bytes x = fmtFixed 1 (x / 1024) ++ " KB/s") ∧
      (1024 ^ 2 ≤ x → format_bytes x = fmtFixed 2 (x / 1024 ^ 2) ++ " MB/s")) ∧
    format_bytes 0 = "0 B/s" ∧
    format_bytes 1023 = "1023 B/s" ∧
    format_bytes 1024 = "1.0 KB/s" ∧
    format_bytes 1536 = "1.5 KB/s" ∧
    format_bytes 1048576 = "1.00 MB/s" ∧
    format_bytes 2621440 = "2.50 MB/s" := by
  refine ⟨fun x h0 => ⟨?_, ?_, ?_⟩, ?_, ?_, ?_, ?_, ?_, ?_⟩
  · intro h
    unfold format_bytes
    rw [if_pos h]
  · intro hge hlt
    unfold format_bytes
    rw [if_neg (not_lt.mpr hge), if_pos hlt]
  · intro hge
    unfold format_bytes
    rw [if_neg (not_lt.mpr (le_trans (by norm_num) hge)), if_neg (not_lt.mpr hge)]
  · unfold format_bytes
    rw [if_pos (by norm_num : (0 : ℚ) < 1024),
        fmtFixed_scaled_nonneg 0 _ 0 (by norm_num) (by norm_num)]
    decide
  · unfold format_bytes
    rw [if_pos (by norm_num : (1023 : ℚ) < 1024),
        fmtFixed_scaled_nonneg 0 _ 1023 (by norm_num) (by norm_num)]
    decide
  · unfold format_bytes
    rw [if_neg (by norm_num : ¬ (1024 : ℚ) < 1024),
        if_pos (by norm_num : (1024 : ℚ) < 1024 ^ 2),
        fmtFixed_scaled_nonneg 1 _ 10 (by norm_num) (by norm_num)]
    decide
  · unfold format_bytes
    rw [if_neg (by norm_num : ¬ (1536 : ℚ) < 1024),
        if_pos (by norm_num : (1536 : ℚ) < 1024 ^ 2),
        fmtFixed_scaled_nonneg 1 _ 15 (by norm_num) (by norm_num)]
    decide
  · unfold format_bytes
    rw [if_neg (by norm_num : ¬ (1048576 : ℚ) < 1024),
        if_neg (by norm_num : ¬ (1048576 : ℚ) < 1024 ^ 2),
        fmtFixed_scaled_nonneg 2 _ 100 (by norm_num) (by norm_num)]
    decide
  · unfold format_bytes
    rw [if_neg (by norm_num : ¬ (2621440 : ℚ) < 1024),
        if_neg (by norm_num : ¬ (2621440 : ℚ) < 1024 ^ 2),
        fmtFixed_scaled_nonneg 2 _ 250 (by norm_num) (by norm_num)]
    decide

/-- C6 witness: the table theorem applied at 500 B/s. -/
theorem format_bytes_table_witness :
    (0 : ℚ) ≤ 500 ∧ (500 : ℚ) < 1024 ∧
      format_bytes 500 = fmtFixed 0 500 ++ " B/s" :=
  ⟨by decide, by decide, (format_bytes_table.1 500 (by decide)).1 (by decide)⟩

/-- C9: the formatter rounds (half to even) rather than truncating, so
every input in [1023.5, 1024) renders as `"1024 B/s"` inside the B/s
branch, and every input in [1048524.8, 1024^2) renders as
`"1024.0 KB/s"` inside the KB/s branch. -/
theorem format_rounds_at_threshold (x : ℚ) :
    ((1023.5 : ℚ) ≤ x → x < 1024 → format_bytes x = "1024 B/s") ∧
    ((1048524.8 : ℚ) ≤ x → x < 1024 ^ 2 → format_bytes x = "1024.0 KB/s") := by
  constructor
  · intro h1 h2
    have hfl : ⌊x⌋ = 1023 := by
      rw [Int.floor_eq_iff]
      constructor
      · push_cast
        linarith [show (1023 : ℚ) ≤ 1023.5 by norm_num]
      · push_cast
        linarith
    have hround : roundHalfEven (x * (10 : ℚ) ^ 0) = 1024 := by
      rw [pow_zero, mul_one]
      unfold roundHalfEven
      simp only [hfl]
      split_ifs with hlt hgt heven
      · exfalso
        push_cast at hlt
        linarith [show (1023 : ℚ) + 1 / 2 = 1023.5 by norm_num]
      · norm_num
      · exact absurd heven (by decide)
      · norm_num
    have hx0 : ¬ (x < 0) := not_lt.mpr (by linarith [show (0 : ℚ) ≤ 1023.5 by norm_num])
    unfold format_bytes
    rw [if_pos h2]
    unfold fmtFixed
    simp only [hround, if_neg hx0]
    decide
  · intro h1 h2
    have hfl : ⌊x / 1024 * (10 : ℚ) ^ 1⌋ = 10239 := by
      rw [Int.floor_eq_iff]
      constructor
      · push_cast
        linarith
      · push_cast
        linarith
    have hround : roundHalfEven (x / 1024 * (10 : ℚ) ^ 1) = 10240 := by
      unfold roundHalfEven
      simp only [hfl]
      split_ifs with hlt hgt heven
      · exfalso
        push_cast at hlt
        linarith
      · norm_num
      · exact absurd heven (by decide)
      · norm_num
    have hy0 : ¬ (x / 1024 < 0) := by
      have hx0 : (0 : ℚ) ≤ x := by linarith [show (0 : ℚ) ≤ 1048524.8 by norm_num]
      exact not_lt.mpr (by positivity)
    unfold format_bytes
    rw [if_neg (not_lt.mpr (by linarith [show (1024 : ℚ) ≤ 1048524.8 by norm_num] : (1024 : ℚ) ≤ x)),
        if_pos h2]
    unfold fmtFixed
    simp only [hround, if_neg hy0]
    decide

/-- C9 witness: the threshold theorem applied at the two tie points. -/
theorem format_rounds_at_threshold_witness :
    format_bytes 1023.5 = "1024 B/s" ∧
      format_bytes 1048524.8 = "1024.0 KB/s" :=
  ⟨(format_rounds_at_threshold 1023.5).1 (le_refl _) halfKB_lt_kb,
   (format_rounds_at_threshold 1048524.8).2 (le_refl _) nearMB_lt_mb⟩

/-- C10: `format_bytes` is total on negative inputs: any `x < 1024`,
negative included, takes the B/s branch, and `-2048` renders as
`"-2048 B/s"`. -/
theorem format_bytes_negatives :
    (∀ x : ℚ, x < 1024 → format_bytes x = fmtFixed 0 x ++ " B/s") ∧
    format_bytes (-2048) = "-2048 B/s" := by
  constructor
  · intro x h
    unfold format_bytes
    rw [if_pos h]
  · unfold format_bytes
    rw [if_pos (by norm_num : (-2048 : ℚ) < 1024),
        fmtFixed_scaled_neg 0 _ (-2048) (by norm_num) (by norm_num)]
    decide

/-- C10 witness: the totality theorem applied at the negative input -5. -/
theorem format_bytes_negatives_witness :
    (-5 : ℚ) < 1024 ∧ format_bytes (-5) = fmtFixed 0 (-5) ++ " B/s" :=
  ⟨by decide, format_bytes_negatives.1 (-5) (by decide)⟩


theorem byteDelta_nonneg (cur prev : ℕ) : 0 ≤ byteDelta cur prev :=
  le_max_left 0 _

theorem byteDelta_of_le (cur prev : ℕ) (h : prev ≤ cur) :
    byteDelta cur prev = (cur : ℤ) - (prev : ℤ) :=
  max_eq_right (sub_nonneg.mpr (by exact_mod_cast h))

/-- C1: when every cumulative counter is at or above its stored previous
value and wall-clock time has advanced, collection succeeds, each rate
equals `(current - previous) / dt` exactly with `dt = now - prev_time`,
and all four rates are non-negative. -/
theorem collect_rates_exact (r : HostReads) (st : MonState)
    (c m : ℚ) (p : ℕ) (cd : DiskCounters) (cn : NetCounters)
    (hc : r.cpu = some c) (hm : r.mem = some m) (hp : r.pids = some p)
    (hd : r.disk = some cd) (hn : r.net = some cn)
    (ht0 : st.prev_time ≠ 0) (ht : st.prev_time < r.now)
    (h1 : st.prev_disk.read_bytes ≤ cd.read_bytes)
    (h2 : st.prev_disk.write_bytes ≤ cd.write_bytes)
    (h3 : st.prev_net.bytes_sent ≤ cn.bytes_sent)
    (h4 : st.prev_net.bytes_recv ≤ cn.bytes_recv) :
    ∃ snap : Metrics, (collect_metrics r st).1 = Except.ok snap ∧
      snap.read_bps = ((cd.read_bytes : ℚ) - (st.prev_disk.read_bytes : ℚ)) / (r.now - st.prev_time) ∧
      snap.write_bps = ((cd.write_bytes : ℚ) - (st.prev_disk.write_bytes : ℚ)) / (r.now - st.prev_time) ∧
      snap.sent_bps = ((cn.bytes_sent : ℚ) - (st.prev_net.bytes_sent : ℚ)) / (r.now - st.prev_time) ∧
      snap.recv_bps = ((cn.bytes_recv : ℚ) - (st.prev_net.bytes_recv : ℚ)) / (r.now - st.prev_time) ∧
      0 ≤ snap.read_bps ∧ 0 ≤ snap.write_bps ∧ 0 ≤ snap.sent_bps ∧ 0 ≤ snap.recv_bps := by
  have hdt : dtOf r.now st.prev_time = r.now - st.prev_time := by
    unfold dtOf
    rw [if_pos ht0]
  have hpos : (0 : ℚ) < r.now - st.prev_time := sub_pos.mpr ht
  have hne : r.now - st.prev_time ≠ 0 := hpos.ne'
  simp only [collect_metrics, hc, hm, hp, hd, hn, hdt, hne, if_false, ite_false]
  refine ⟨_, rfl, ?_, ?_, ?_, ?_, ?_, ?_, ?_, ?_⟩
  · dsimp only
    rw [byteDelta_of_le _ _ h1]
    push_cast
    ring
  · dsimp only
    rw [byteDelta_of_le _ _ h2]
    push_cast
    ring
  · dsimp only
    rw [byteDelta_of_le _ _ h3]
    push_cast
    ring
  · dsimp only
    rw [byteDelta_of_le _ _ h4]
    push_cast
    ring
  · exact div_nonneg (by exact_mod_cast byteDelta_nonneg _ _) hpos.le
  · exact div_nonneg (by exact_mod_cast byteDelta_nonneg _ _) hpos.le
  · exact div_nonneg (by exact_mod_cast byteDelta_nonneg _ _) hpos.le
  · exact div_nonneg (by exact_mod_cast byteDelta_nonneg _ _) hpos.le

/-- C1 witness: a concrete monotone step with dt = 4. -/
theorem collect_rates_exact_witness :
    ∃ snap : Metrics,
      (collect_metrics { now := 10, cpu := some 150, mem := some 50, pids := some 7,
                         disk := some ⟨100, 200⟩, net := some ⟨30, 40⟩ }
         { cpu_history := [], prev_disk := ⟨40, 50⟩, prev_net := ⟨10, 5⟩, prev_time := 6 }).1
        = Except.ok snap ∧
      snap.read_bps = (((100 : ℕ) : ℚ) - ((40 : ℕ) : ℚ)) / ((10 : ℚ) - 6) ∧
      snap.write_bps = (((200 : ℕ) : ℚ) - ((50 : ℕ) : ℚ)) / ((10 : ℚ) - 6) ∧
      snap.sent_bps = (((30 : ℕ) : ℚ) - ((10 : ℕ) : ℚ)) / ((10 : ℚ) - 6) ∧
      snap.recv_bps = (((40 : ℕ) : ℚ) - ((5 : ℕ) : ℚ)) / ((10 : ℚ) - 6) ∧
      0 ≤ snap.read_bps ∧ 0 ≤ snap.write_bps ∧ 0 ≤ snap.sent_bps ∧ 0 ≤ snap.recv_bps :=
  collect_rates_exact _ _ 150 50 7 ⟨100, 200⟩ ⟨30, 40⟩ rfl rfl rfl rfl rfl
    (by decide) (by decide) (by decide) (by decide) (by decide) (by decide)

/-- C2: a counter reading strictly below the stored previous one yields a
clamped delta of exactly 0 (`max(0, cur - prev)`), and the resulting rate
for that counter in a successful collection is 0. -/
theorem delta_clamped_on_reset :
    (∀ cur prev : ℕ, cur < prev → byteDelta cur prev = 0) ∧
    (∀ (r : HostReads) (st : MonState) (c m : ℚ) (p : ℕ)
       (cd : DiskCounters) (cn : NetCounters),
      r.cpu = some c → r.mem = some m → r.pids = some p →
      r.disk = some cd → r.net = some cn →
      st.prev_time ≠ 0 → r.now ≠ st.prev_time →
      cd.read_bytes < st.prev_disk.read_bytes →
      ∃ snap : Metrics, (collect_metrics r st).1 = Except.ok snap ∧
        snap.read_bps = 0) := by
  constructor
  · intro cur prev h
    unfold byteDelta
    exact max_eq_left (by omega)
  · intro r st c m p cd cn hc hm hp hd hn ht0 hne hreset
    have hdt : dtOf r.now st.prev_time = r.now - st.prev_time := by
      unfold dtOf
      rw [if_pos ht0]
    have hdne : r.now - st.prev_time ≠ 0 := sub_ne_zero.mpr hne
    simp only [collect_metrics, hc, hm, hp, hd, hn, hdt, hdne, if_false, ite_false]
    refine ⟨_, rfl, ?_⟩
    dsimp only
    rw [show byteDelta cd.read_bytes st.prev_disk.read_bytes = 0 by
          unfold byteDelta
          exact max_eq_left (by omega)]
    simp

/-- C2 witness: read counter drops from 40 to 10 while everything else is
normal; the read rate comes out 0. -/
theorem delta_clamped_on_reset_witness :
    byteDelta 3 5 = 0 ∧
    ∃ snap : Metrics,
      (collect_metrics { now := 8, cpu := some 1, mem := some 2, pids := some 3,
                         disk := some ⟨10, 70⟩, net := some ⟨9, 9⟩ }
         { cpu_history := [], prev_disk := ⟨40, 50⟩, prev_net := ⟨1, 2⟩, prev_time := 6 }).1
        = Except.ok snap ∧ snap.read_bps = 0 :=
  ⟨delta_clamped_on_reset.1 3 5 (by decide),
   delta_clamped_on_reset.2 _ _ 1 2 3 ⟨10, 70⟩ ⟨9, 9⟩ rfl rfl rfl rfl rfl
     (by decide) (by decide) (by decide)⟩

/-- C3 counterexample: with a nonzero stored timestamp equal to `now`
(so `dt = 0`), collection raises a division error instead of
substituting `dt = 1.0`: the guard only tests the truthiness of
`prev_time`, never `dt <= 0`. -/
theorem collect_divzero_cex :
    (collect_metrics { now := 5, cpu := some 1, mem := some 1, pids := some 1,
                       disk := some ⟨0, 0⟩, net := some ⟨0, 0⟩ }
       { cpu_history := [], prev_disk := ⟨0, 0⟩, prev_net := ⟨0, 0⟩, prev_time := 5 }).1
      = Except.error CollectErr.zeroDivision := by
  have hdt : dtOf 5 5 = 0 := by
    unfold dtOf
    rw [if_pos (by decide : (5 : ℚ) ≠ 0)]
    norm_num
  simp [collect_metrics, hdt]

/-- C3 amended: `dt` is substituted by 1.0 exactly when the stored
previous timestamp is zero (Python falsiness), not when `dt <= 0`; when
the stored timestamp is nonzero and `now` equals it, the rate division
raises `ZeroDivisionError`. -/
theorem dt_substitution_amended :
    (∀ now prev : ℚ, prev = 0 → dtOf now prev = 1) ∧
    (∀ (r : HostReads) (st : MonState) (c m : ℚ) (p : ℕ) (cd : DiskCounters),
      r.cpu = some c → r.mem = some m → r.pids = some p → r.disk = some cd →
      st.prev_time ≠ 0 → r.now = st.prev_time →
      (collect_metrics r st).1 = Except.error CollectErr.zeroDivision) := by
  constructor
  · intro now prev h
    unfold dtOf
    rw [if_neg (by simp [h])]
  · intro r st c m p cd hc hm hp hd ht0 hnow
    have hdt : dtOf r.now st.prev_time = 0 := by
      unfold dtOf
      rw [if_pos ht0, hnow, sub_self]
    simp [collect_metrics, hc, hm, hp, hd, hdt]

/-- C3 witness for the amended statement. -/
theorem dt_substitution_amended_witness :
    dtOf 3 0 = 1 ∧
    (collect_metrics { now := 7, cpu := some 2, mem := some 3, pids := some 4,
                       disk := some ⟨1, 1⟩, net := some ⟨1, 1⟩ }
       { cpu_history := [0], prev_disk := ⟨0, 0⟩, prev_net := ⟨0, 0⟩, prev_time := 7 }).1
      = Except.error CollectErr.zeroDivision :=
  ⟨dt_substitution_amended.1 3 0 rfl,
   dt_substitution_amended.2 _ _ 2 3 4 ⟨1, 1⟩ rfl rfl rfl rfl (by decide) rfl⟩

/-- C8: whatever CPU and memory percentages the host reports, a
successful collection copies them into the snapshot unchanged. -/
theorem collect_cpu_mem_passthrough (r : HostReads) (st : MonState)
    (c m : ℚ) (snap : Metrics)
    (hc : r.cpu = some c) (hm : r.mem = some m)
    (h : (collect_metrics r st).1 = Except.ok snap) :
    snap.cpu = c ∧ snap.mem = m := by
  rcases hp : r.pids with _ | p
  · simp [collect_metrics, hc, hm, hp] at h
  rcases hd : r.disk with _ | cd
  · simp [collect_metrics, hc, hm, hp, hd] at h
  by_cases hdt : dtOf r.now st.prev_time = 0
  · simp [collect_metrics, hc, hm, hp, hd, hdt] at h
  rcases hn : r.net with _ | cn
  · simp [collect_metrics, hc, hm, hp, hd, hdt, hn] at h
  simp only [collect_metrics, hc, hm, hp, hd, hdt, hn, if_false, ite_false,
    Except.ok.injEq] at h
  subst h
  exact ⟨rfl, rfl⟩


theorem collect_concrete_ok :
    (collect_metrics { now := 7, cpu := some 150, mem := some 250, pids := some 4,
                       disk := some ⟨100, 200⟩, net := some ⟨30, 40⟩ }
       { cpu_history := [], prev_disk := ⟨40, 50⟩, prev_net := ⟨10, 5⟩, prev_time := 6 }).1
      = Except.ok { cpu := 150, mem := 250, proc_count := 4,
                    read_bps := 60, write_bps := 150, sent_bps := 20, recv_bps := 35,
                    timestamp := 7 } := by
  have hdt : dtOf 7 6 = 1 := by
    unfold dtOf
    rw [if_pos (by decide : (6 : ℚ) ≠ 0)]
    norm_num
  norm_num [collect_metrics, hdt, byteDelta, max_def]

/-- Claim C8 witness: out-of-range percentages (cpu 150, mem 250) flow
through a successful collection unchanged. -/
theorem collect_cpu_mem_passthrough_witness :
    (collect_metrics { now := 7, cpu := some 150, mem := some 250, pids := some 4,
                       disk := some ⟨100, 200⟩, net := some ⟨30, 40⟩ }
       { cpu_history := [], prev_disk := ⟨40, 50⟩, prev_net := ⟨10, 5⟩, prev_time := 6 }).1
      = Except.ok { cpu := 150, mem := 250, proc_count := 4,
                    read_bps := 60, write_bps := 150, sent_bps := 20, recv_bps := 35,
                    timestamp := 7 } ∧
    (({ cpu := 150, mem := 250, proc_count := 4, read_bps := 60, write_bps := 150,
        sent_bps := 20, recv_bps := 35, timestamp := 7 } : Metrics).cpu = 150 ∧
     ({ cpu := 150, mem := 250, proc_count := 4, read_bps := 60, write_bps := 150,
        sent_bps := 20, recv_bps := 35, timestamp := 7 } : Metrics).mem = 250) :=
  ⟨collect_concrete_ok,
   collect_cpu_mem_passthrough _ _ 150 250 _ rfl rfl collect_concrete_ok⟩

/-- C4 counterexample: a failing CPU read still mutates the stored
state: `self.prev_time = now` runs before any psutil read, so the
post-failure state differs from the pre-tick state. -/
theorem collect_failure_mutation_cex :
    (collect_metrics { now := 2, cpu := none, mem := none, pids := none,
                       disk := none, net := none }
       { cpu_history := [], prev_disk := ⟨0, 0⟩, prev_net := ⟨0, 0⟩, prev_time := 1 }).1
      = Except.error (CollectErr.subsystem Subsystem.cpu) ∧
    (collect_metrics { now := 2, cpu := none, mem := none, pids := none,
                       disk := none, net := none }
       { cpu_history := [], prev_disk := ⟨0, 0⟩, prev_net := ⟨0, 0⟩, prev_time := 1 }).2
      ≠ ({ cpu_history := [], prev_disk := ⟨0, 0⟩, prev_net := ⟨0, 0⟩,
           prev_time := 1 } : MonState) := by
  constructor
  · decide
  · decide

/-- C4 amended: on a failed collection the history deque and the stored
network counters are untouched, but the stored timestamp has already
been overwritten with `now` (and the stored disk counters are
overwritten when the network read is the one that fails). -/
theorem collect_failure_state_amended (r : HostReads) (st : MonState)
    (e : CollectErr) (h : (collect_metrics r st).1 = Except.error e) :
    (collect_metrics r st).2.cpu_history = st.cpu_history ∧
    (collect_metrics r st).2.prev_net = st.prev_net ∧
    (collect_metrics r st).2.prev_time = r.now := by
  rcases hc : r.cpu with _ | c
  · simp [collect_metrics, hc]
  rcases hm : r.mem with _ | m
  · simp [collect_metrics, hc, hm]
  rcases hp : r.pids with _ | p
  · simp [collect_metrics, hc, hm, hp]
  rcases hd : r.disk with _ | cd
  · simp [collect_metrics, hc, hm, hp, hd]
  by_cases hdt : dtOf r.now st.prev_time = 0
  · simp [collect_metrics, hc, hm, hp, hd, hdt]
  rcases hn : r.net with _ | cn
  · simp [collect_metrics, hc, hm, hp, hd, hdt, hn]
  · exfalso
    simp [collect_metrics, hc, hm, hp, hd, hdt, hn] at h

/-- C4 witness for the amended statement: a tick whose CPU read fails. -/
theorem collect_failure_state_amended_witness :
    (collect_metrics { now := 4, cpu := none, mem := none, pids := none,
                       disk := none, net := none }
       { cpu_history := [1], prev_disk := ⟨2, 2⟩, prev_net := ⟨3, 3⟩, prev_time := 3 }).1
      = Except.error (CollectErr.subsystem Subsystem.cpu) ∧
    ((collect_metrics { now := 4, cpu := none, mem := none, pids := none,
                        disk := none, net := none }
        { cpu_history := [1], prev_disk := ⟨2, 2⟩, prev_net := ⟨3, 3⟩, prev_time := 3 }).2.cpu_history
        = [1] ∧
     (collect_metrics { now := 4, cpu := none, mem := none, pids := none,
                        disk := none, net := none }
        { cpu_history := [1], prev_disk := ⟨2, 2⟩, prev_net := ⟨3, 3⟩, prev_time := 3 }).2.prev_net
        = ⟨3, 3⟩ ∧
     (collect_metrics { now := 4, cpu := none, mem := none, pids := none,
                        disk := none, net := none }
        { cpu_history := [1], prev_disk := ⟨2, 2⟩, prev_net := ⟨3, 3⟩, prev_time := 3 }).2.prev_time
        = 4) :=
  ⟨by decide, collect_failure_state_amended _ _ (CollectErr.subsystem Subsystem.cpu) (by decide)⟩

theorem history_append_length (h : List ℚ) (v : ℚ)
    (hh : h.length = CPU_HISTORY_LEN) :
    (history_append h v).length = CPU_HISTORY_LEN := by
  unfold history_append
  rw [if_pos (le_of_eq hh.symm)]
  simp only [List.length_append, List.length_tail, hh, List.length_singleton]
  have hpos : 0 < CPU_HISTORY_LEN := by decide
  omega

theorem foldl_history_append (vs : List ℚ) :
    ∀ h : List ℚ, h.length = CPU_HISTORY_LEN →
      vs.foldl history_append h = (h ++ vs).drop vs.length := by
  induction vs with
  | nil =>
    intro h hh
    simp
  | cons v rest ih =>
    intro h hh
    rw [List.foldl_cons, ih _ (history_append_length h v hh)]
    unfold history_append
    rw [if_pos (le_of_eq hh.symm)]
    obtain ⟨y, ys, rfl⟩ : ∃ y ys, h = y :: ys := by
      cases h with
      | nil =>
        exfalso
        rw [List.length_nil] at hh
        exact absurd hh.symm (by decide)
      | cons a as => exact ⟨a, as, rfl⟩
    simp [List.tail_cons, List.cons_append, List.singleton_append, List.append_assoc,
      List.drop_succ_cons, List.length_cons]

/-- C5: the history starts as exactly N zeros (N = 60), and after N + k
appends it holds exactly N elements: the last N appended values in
oldest-to-newest order. -/
theorem rolling_history_spec (k : ℕ) (vs : List ℚ)
    (h : vs.length = CPU_HISTORY_LEN + k) :
    history_init.length = CPU_HISTORY_LEN ∧
    (∀ x ∈ history_init, x = 0) ∧
    (vs.foldl history_append history_init).length = CPU_HISTORY_LEN ∧
    vs.foldl history_append history_init = vs.drop k := by
  have hlen : history_init.length = CPU_HISTORY_LEN := by
    simp [history_init]
  have hfold : vs.foldl history_append history_init = vs.drop k := by
    rw [foldl_history_append vs history_init hlen, h, ← List.drop_drop,
      ← hlen, List.drop_left]
  refine ⟨hlen, ?_, ?_, hfold⟩
  · intro x hx
    exact List.eq_of_mem_replicate hx
  · rw [hfold, List.length_drop, h]
    omega

/-- C5 witness: 61 appends of the value 1 onto the freshly built
history leave the last 60 ones, i.e. the 61-element list minus its
head. -/
theorem rolling_history_spec_witness :
    (List.replicate 61 (1 : ℚ)).length = CPU_HISTORY_LEN + 1 ∧
    (history_init.length = CPU_HISTORY_LEN ∧
     (∀ x ∈ history_init, x = 0) ∧
     ((List.replicate 61 (1 : ℚ)).foldl history_append history_init).length
       = CPU_HISTORY_LEN ∧
     (List.replicate 61 (1 : ℚ)).foldl history_append history_init
       = (List.replicate 61 (1 : ℚ)).drop 1) :=
  ⟨by decide, rolling_history_spec 1 (List.replicate 61 1) (by decide)⟩

/-- C7: every tick, failed or not, hands `UPDATE_INTERVAL_MS` to the
rescheduling call (`root.after` sits outside the `try` block), and a
run of the loop executes one tick per input: no failure terminates it. -/
theorem schedule_never_stops :
    (∀ (inp : TickInput) (st : MonState),
      (schedule_update inp st).2.2 = UPDATE_INTERVAL_MS) ∧
    (∀ (st : MonState) (inputs : List TickInput),
      (run_schedule st inputs).length = inputs.length) := by
  constructor
  · intro inp st
    rcases hres : collect_metrics inp.reads st with ⟨res, st2⟩
    rcases res with e | mres
    · simp [schedule_update, hres]
    · simp [schedule_update, hres]
      split_ifs <;> rfl
  · intro st inputs
    induction inputs generalizing st with
    | nil => rfl
    | cons i rest ih =>
      simp [run_schedule, List.length_cons, ih]

end SysMonitor
